import Mathlib

/-! # netpingpong: probe loop, health relay and taint removal

A shallow embedding of `main.go`: the probe loop of `main`, the relay
`handler`, and `removeTaint` with the read-modify-write closure it hands to
`retry.RetryOnConflict`.

Conventions of the embedding

* Go functions that talk to the outside (the cluster API, the HTTP client,
  the file system, the process environment) are explicit state passing: a
  function takes the state of the outside world and returns its result
  together with the next state.
* A Go `error` result is `Option GoError` (`none` is `nil`); a Go
  `(value, error)` result is `Except GoError value`.
* The calls a run makes are recorded, in order, in a trace that the
  embedding threads through; the trace is the only addition to the code.
* `log.Printf` output and `time.Sleep` durations are not part of the model;
  `log.Fatalf` ends the process and is the outcome `Fatal`.
-/

namespace NetPingPong

/-! ## Data model: the fields of `k8s.io/api/core/v1` the program touches -/

/-- A `v1.Taint`: key, value and effect. -/
structure Taint where
  Key : String
  Value : String
  Effect : String
deriving DecidableEq, Repr

/-- A `v1.NodeSpec`: the taint list, and one more scheduling field standing
for the rest of the spec, which the program reads and writes back untouched. -/
structure NodeSpec where
  Taints : List Taint
  Unschedulable : Bool
deriving DecidableEq, Repr

/-- A `v1.Node`: its name, the version the API server uses for optimistic
concurrency, and its spec. -/
structure Node where
  Name : String
  ResourceVersion : Nat
  Spec : NodeSpec
deriving DecidableEq, Repr

/-! ## The taint transform of `removeTaint` (main.go, lines 132-139) -/

/-- The loop `for _, taint := range node.Spec.Taints` of `removeTaint`:
starting from the empty slice `newTaints`, every taint whose key differs
from `taintName` is appended, in iteration order. -/
def newTaints (taintName : String) (taints : List Taint) : List Taint :=
  taints.foldl
    (fun acc taint => if taint.Key != taintName then acc ++ [taint] else acc) []

/-- The assignment `node.Spec.Taints = newTaints`: the node fetched by `Get`
with its taint list replaced, every other field as it was read. -/
def setTaints (taintName : String) (node : Node) : Node :=
  { node with Spec := { node.Spec with Taints := newTaints taintName node.Spec.Taints } }

/-! ## Errors -/

/-- The `metav1.StatusReason` values that occur here. -/
inductive StatusReason where
  | Conflict
  | NotFound
  | Unknown
deriving DecidableEq, Repr

/-- The Go `error` values of the program.

* `StatusError reason message` is the `*errors.StatusError` a cluster API
  call returns; it carries the API status and with it the reason.
* `errorString s` is what `errors.New` and `fmt.Errorf` without a `%w` verb
  return: a text and nothing else (no `Unwrap` method).
* `ErrWaitTimeout` is the sentinel `wait.ErrWaitTimeout`, which is compared
  by identity. -/
inductive GoError where
  | StatusError (reason : StatusReason) (message : String)
  | errorString (s : String)
  | ErrWaitTimeout
deriving DecidableEq, Repr

/-- The method `Error()` of an error value: its text. -/
def GoError.Error : GoError → String
  | .StatusError _ message => message
  | .errorString s => s
  | .ErrWaitTimeout => "timed out waiting for the condition"

/-- Modelled from the spec: `fmt.Errorf` of the Go standard library is not
under src/. The two calls in `removeTaint` have the format
`"<text> %s: %v"`; the verb `%v` prints the text of the error operand, and
since the format has no `%w` the result is a plain `errorString`. -/
def Errorf (text name : String) (err : GoError) : GoError :=
  .errorString (text ++ name ++ ": " ++ err.Error)

/-- Modelled from the spec: `errors.IsConflict` of apimachinery is not under
src/. A Conflict is "a rejected write caused by the record having been
modified since it was last read"; the library reads the reason off an error
that carries an API status (directly or through `Unwrap`), and answers
`false` for every other error. -/
def IsConflict : GoError → Bool
  | .StatusError reason _ => reason == StatusReason.Conflict
  | .errorString _ => false
  | .ErrWaitTimeout => false

/-! ## The retry library (`k8s.io/client-go/util/retry`, `wait`) -/

/-- Modelled from the spec: `wait.Backoff` is not under src/; of its fields
only `Steps`, the number of attempts, decides what is called (the durations
only decide how long the sleeps are). -/
structure Backoff where
  Steps : Nat
deriving DecidableEq, Repr

/-- Modelled from the spec: `retry.DefaultRetry` is not under src/; its
retry budget is 5 steps. -/
def DefaultRetry : Backoff := { Steps := 5 }

/-- Modelled from the spec: `wait.ExponentialBackoff` is not under src/. It
runs `condition` while steps remain: an error or `true` ends the loop with
that error (`nil` for `true`); otherwise, when this was the last step, the
loop ends with `ErrWaitTimeout`, and else one step is used up and the
condition runs again. -/
def ExponentialBackoff {τ : Type} :
    Nat → (τ → (Bool × Option GoError) × τ) → τ → Option GoError × τ
  | 0, _, s => (some GoError.ErrWaitTimeout, s)
  | steps + 1, condition, s =>
    match condition s with
    | ((ok, err), s1) =>
      if err.isSome || ok then (err, s1)
      else if steps + 1 = 1 then (some GoError.ErrWaitTimeout, s1)
      else ExponentialBackoff steps condition s1

/-- Modelled from the spec: `retry.OnError` is not under src/. "Bounded
count ... after the budget is exhausted the call returns" the last
retriable error: `fn` is run under `ExponentialBackoff`; `nil` ends the
loop with success, a retriable error is remembered in `lastErr` and lets
the loop go on, any other error ends the loop at once; a timeout of the
loop is replaced by `lastErr`. The second component of the loop state is
the variable `lastErr`. -/
def OnError {τ : Type} (backoff : Backoff) (retriable : GoError → Bool)
    (fn : τ → Option GoError × τ) (s : τ) : Option GoError × τ :=
  let condition : τ × Option GoError → (Bool × Option GoError) × (τ × Option GoError) :=
    fun p =>
      match fn p.1 with
      | (none, s1) => ((true, none), (s1, p.2))
      | (some err, s1) =>
        if retriable err then ((false, none), (s1, some err))
        else ((false, some err), (s1, p.2))
  match ExponentialBackoff backoff.Steps condition (s, none) with
  | (err, (s1, lastErr)) =>
    if err = some GoError.ErrWaitTimeout then (lastErr, s1) else (err, s1)

/-- Modelled from the spec: `retry.RetryOnConflict` is not under src/; it is
`OnError` with `errors.IsConflict` as the test for a retriable error. -/
def RetryOnConflict {τ : Type} (backoff : Backoff) (fn : τ → Option GoError × τ)
    (s : τ) : Option GoError × τ :=
  OnError backoff IsConflict fn s

/-! ## The cluster API and the trace of calls -/

/-- What a run does to the outside, in order: an entry into `removeTaint`
with its two arguments, a `Get` with the name asked for and its result, an
`Update` with the record sent and its result. -/
inductive Event where
  | removeTaint (nodeName taintName : String)
  | Get (name : String) (result : Except GoError Node)
  | Update (node : Node) (result : Except GoError Node)

/-- The node client `clientset.CoreV1().Nodes()` over a cluster whose state
has type `σ`: the two operations the program calls, each returning its
result and the next cluster state. -/
structure NodeInterface (σ : Type) where
  Get : String → σ → Except GoError Node × σ
  Update : Node → σ → Except GoError Node × σ

/-- The outside world of a run: the cluster and the calls made so far. -/
structure World (σ : Type) where
  cluster : σ
  trace : List Event

/-- A `Nodes().Get(ctx, name, opts)` call, recorded in the trace. -/
def nodesGet {σ : Type} (c : NodeInterface σ) (name : String) (w : World σ) :
    Except GoError Node × World σ :=
  match c.Get name w.cluster with
  | (r, cl) => (r, { cluster := cl, trace := w.trace ++ [Event.Get name r] })

/-- A `Nodes().Update(ctx, node, opts)` call, recorded in the trace. -/
def nodesUpdate {σ : Type} (c : NodeInterface σ) (node : Node) (w : World σ) :
    Except GoError Node × World σ :=
  match c.Update node w.cluster with
  | (r, cl) => (r, { cluster := cl, trace := w.trace ++ [Event.Update node r] })

/-- A `rest.Config`, as far as the program is concerned an opaque value
handed from `rest.InClusterConfig` to `kubernetes.NewForConfig`. -/
structure RestConfig where
  Host : String
deriving DecidableEq, Repr

/-- The two client constructors `removeTaint` calls first; what they return
is decided by the pod the process runs in. -/
structure Kube (σ : Type) where
  InClusterConfig : Except GoError RestConfig
  NewForConfig : RestConfig → Except GoError (NodeInterface σ)

/-- How a call that may end the process ends: it returns, or `log.Fatalf`
has printed `msg` and exited. -/
inductive Outcome where
  | Return
  | Fatal (msg : String)
deriving DecidableEq, Repr

/-! ## `removeTaint` (main.go, lines 113-154) -/

/-- The function literal passed to `retry.RetryOnConflict` (lines 125-149):
get the node, or return `failed to get node`; filter the taints; update the
node, or return `failed to update node`; else `nil`. -/
def removeTaint_func1 {σ : Type} (clientset : NodeInterface σ)
    (nodeName taintName : String) (w : World σ) : Option GoError × World σ :=
  match nodesGet clientset nodeName w with
  | (.error err, w1) => (some (Errorf "failed to get node " nodeName err), w1)
  | (.ok node, w1) =>
    match nodesUpdate clientset (setTaints taintName node) w1 with
    | (.error err, w2) => (some (Errorf "failed to update node " nodeName err), w2)
    | (.ok _, w2) => (none, w2)

/-- The function `removeTaint`: build the client (fatal on failure), run the
closure under `retry.RetryOnConflict(retry.DefaultRetry, ...)`, and exit
through `log.Fatalf` when that returns an error. -/
def removeTaint {σ : Type} (k : Kube σ) (nodeName taintName : String) (w : World σ) :
    Outcome × World σ :=
  let w0 : World σ := { w with trace := w.trace ++ [Event.removeTaint nodeName taintName] }
  match k.InClusterConfig with
  | .error err => (Outcome.Fatal ("Error getting in cluster config: " ++ err.Error), w0)
  | .ok config =>
    match k.NewForConfig config with
    | .error err => (Outcome.Fatal ("Error creating clientset: " ++ err.Error), w0)
    | .ok clientset =>
      match RetryOnConflict DefaultRetry (removeTaint_func1 clientset nodeName taintName) w0 with
      | (some retryErr, w1) => (Outcome.Fatal ("Error removing taint: " ++ retryErr.Error), w1)
      | (none, w1) => (Outcome.Return, w1)

/-! ## The probe loop of `main` (main.go, lines 21-66) -/

/-- An outgoing `http.Request`: method, target and headers. -/
structure HttpRequest where
  Method : String
  URL : String
  Header : List (String × String)
deriving DecidableEq, Repr

/-- An `http.Response`, of which the program reads the status code only.
The client reads the code off the status line, where it is three decimal
digits: a number from 0 to 999. -/
structure HttpResponse where
  StatusCode : Fin 1000
deriving DecidableEq, Repr

/-- The constant `http.StatusOK`. -/
def StatusOK : Nat := 200

/-- The constant `http.StatusBadRequest`. -/
def StatusBadRequest : Nat := 400

/-- The constant `http.StatusInternalServerError`. -/
def StatusInternalServerError : Nat := 500

/-- What one iteration of the probe loop finds outside the process: the
environment variables, the file system, the request constructor
`http.NewRequest`, the HTTP client, and the client constructors that
`removeTaint` uses. -/
structure TickEnv (σ : Type) where
  Getenv : String → String
  ReadFile : String → Except GoError String
  NewRequest : String → String → Except GoError HttpRequest
  Do : HttpRequest → Except GoError HttpResponse
  kube : Kube σ

/-- One iteration of the `for` loop of the goroutine, after the sleep: read
the three environment variables; read the token, build the request and send
it, each failure being a `continue`; on status 200 call `removeTaint`. The
result `Outcome.Return` means that the iteration is over and the loop goes
on; `Outcome.Fatal` that the process has exited. -/
def probeTick {σ : Type} (env : TickEnv σ) (w : World σ) : Outcome × World σ :=
  let address := env.Getenv "NETPong_ADDRESS"
  let taintName := env.Getenv "TAINT_NAME"
  let nodeName := env.Getenv "NODE_NAME"
  match env.ReadFile "/var/run/secrets/netpingpong/token" with
  | .error _ => (Outcome.Return, w)
  | .ok token =>
    match env.NewRequest "GET" address with
    | .error _ => (Outcome.Return, w)
    | .ok req =>
      let req1 : HttpRequest :=
        { req with Header := req.Header ++ [("Authorization", "Bearer " ++ token)] }
      match env.Do req1 with
      | .error _ => (Outcome.Return, w)
      | .ok resp =>
        if resp.StatusCode.val = StatusOK then removeTaint env.kube nodeName taintName w
        else (Outcome.Return, w)

/-- The goroutine of `main`, on the iterations whose surroundings are listed
in `envs`: the iterations run one after the other until one of them exits
the process. -/
def probeLoop {σ : Type} : List (TickEnv σ) → World σ → Outcome × World σ
  | [], w => (Outcome.Return, w)
  | env :: envs, w =>
    match probeTick env w with
    | (Outcome.Fatal msg, w1) => (Outcome.Fatal msg, w1)
    | (Outcome.Return, w1) => probeLoop envs w1

/-- The condition under which an iteration reaches the call of
`removeTaint`: token read, request built, response received, status 200. -/
def probeHealthy {σ : Type} (env : TickEnv σ) : Prop :=
  ∃ token req resp,
    env.ReadFile "/var/run/secrets/netpingpong/token" = .ok token ∧
    env.NewRequest "GET" (env.Getenv "NETPong_ADDRESS") = .ok req ∧
    env.Do { req with Header := req.Header ++ [("Authorization", "Bearer " ++ token)] }
      = .ok resp ∧
    resp.StatusCode = 200

/-- The entries of `removeTaint` in a trace. -/
def removeTaintCalls : List Event → List (String × String)
  | [] => []
  | Event.removeTaint nodeName taintName :: es => (nodeName, taintName) :: removeTaintCalls es
  | _ :: es => removeTaintCalls es

/-- The number of `Get` calls in a trace. -/
def countGet : List Event → Nat
  | [] => 0
  | Event.Get _ _ :: es => countGet es + 1
  | _ :: es => countGet es

/-- The number of `Update` calls in a trace. -/
def countUpdate : List Event → Nat
  | [] => 0
  | Event.Update _ _ :: es => countUpdate es + 1
  | _ :: es => countUpdate es

/-! ## The relay `handler` (main.go, lines 77-111) -/

/-- The query of a request as `url.Values`: keys with their lists of
values. -/
abbrev Values := List (String × List String)

/-- Modelled from the spec: `url.Values.Get` of the Go standard library is
not under src/. It gives the first value associated with the key, and the
empty string when the key has no value. -/
def Values.Get (v : Values) (key : String) : String :=
  match v.lookup key with
  | some (value :: _) => value
  | _ => ""

/-- An incoming request, of which the handler reads `r.URL.Query()`. -/
structure Request where
  Query : Values
deriving DecidableEq, Repr

/-- A parsed `url.URL`, with the parts as they stand in the text; the
handler discards it. -/
structure URL where
  Scheme : String
  Opaque : String
  Host : String
  RawPath : String
  RawQuery : String
  ForceQuery : Bool
deriving DecidableEq, Repr

/-- Modelled from the spec: `stringContainsCTLByte` of `net/url` is not
under src/. It reports an ASCII control character: a byte below `0x20`, or
`0x7f`. -/
def stringContainsCTLByte (s : List Char) : Bool :=
  s.any (fun c => decide (c.toNat < 0x20) || decide (c.toNat = 0x7f))

/-- An ASCII letter, the test `'a' <= c && c <= 'z' || 'A' <= c && c <= 'Z'`. -/
def isLetter (c : Char) : Bool :=
  (decide ('a'.toNat ≤ c.toNat) && decide (c.toNat ≤ 'z'.toNat)) ||
    (decide ('A'.toNat ≤ c.toNat) && decide (c.toNat ≤ 'Z'.toNat))

/-- A digit or one of `+`, `-`, `.`: the characters a scheme may have after
its first letter, besides letters. -/
def isSchemeMark (c : Char) : Bool :=
  (decide ('0'.toNat ≤ c.toNat) && decide (c.toNat ≤ '9'.toNat)) ||
    c == '+' || c == '-' || c == '.'

/-- The loop of `getScheme`, at the position after the characters `seen`. -/
def getSchemeFrom (rawURL : List Char) :
    List Char → List Char → Except GoError (List Char × List Char)
  | _, [] => .ok ([], rawURL)
  | seen, c :: cs =>
    if isLetter c then getSchemeFrom rawURL (seen ++ [c]) cs
    else if isSchemeMark c then
      if seen = [] then .ok ([], rawURL) else getSchemeFrom rawURL (seen ++ [c]) cs
    else if c = ':' then
      if seen = [] then .error (GoError.errorString "missing protocol scheme")
      else .ok (seen, cs)
    else .ok ([], rawURL)

/-- Modelled from the spec: `getScheme` of `net/url` is not under src/. It
splits off a leading `scheme:`; letters may stand anywhere in the scheme,
digits and `+`, `-`, `.` anywhere but first; a colon in first place is an
error, and any other character before a colon means that there is no
scheme, in which case the whole text is left. -/
def getScheme (rawURL : List Char) : Except GoError (List Char × List Char) :=
  getSchemeFrom rawURL [] rawURL

/-- The split at the query in `parse`: when the text ends in its only `?`,
that `?` is dropped and `ForceQuery` is set; else the text is cut at its
first `?`. The result is the part before, the query, and `ForceQuery`. -/
def cutQuery (rest : List Char) : List Char × List Char × Bool :=
  if rest.getLast? = some '?' ∧ rest.count '?' = 1 then (rest.dropLast, [], true)
  else (rest.takeWhile (fun c => c != '?'), (rest.dropWhile (fun c => c != '?')).drop 1, false)

/-- A hexadecimal digit, `ishex` of `net/url`. -/
def ishex (c : Char) : Bool :=
  (decide ('0'.toNat ≤ c.toNat) && decide (c.toNat ≤ '9'.toNat)) ||
    (decide ('a'.toNat ≤ c.toNat) && decide (c.toNat ≤ 'f'.toNat)) ||
    (decide ('A'.toNat ≤ c.toNat) && decide (c.toNat ≤ 'F'.toNat))

/-- Modelled from the spec: `setPath` of `net/url` is not under src/. It
fails exactly when unescaping the path fails, which for a path is when a
`%` is not followed by two hexadecimal digits. -/
def validPathEscapes : List Char → Bool
  | [] => true
  | c :: cs =>
    if c = '%' then
      match cs with
      | a :: b :: rest => ishex a && ishex b && validPathEscapes rest
      | _ => false
    else validPathEscapes cs

/-- Modelled from the spec: `url.ParseRequestURI` of the Go standard library
is not under src/. It is `parse(rawURL, true)` with the error wrapped: "the
url is interpreted only as an absolute URI or an absolute path". In order:
a control character is an error; so is the empty text; `*` is accepted; the
scheme is split off and the query cut; a text that does not begin with `/`
is accepted as opaque when it has a scheme and is otherwise the error
`invalid URI for request`; with a scheme and a leading `//` the authority up
to the next `/` is handed to `parseAuthority`; the path must unescape. The
parser of the authority, `parseAuthority`, is a parameter. -/
def ParseRequestURI (parseAuthority : String → Except GoError String) (rawURL : String) :
    Except GoError URL :=
  let wrap : String → GoError := fun text =>
    GoError.errorString ("parse " ++ rawURL ++ ": " ++ text)
  let raw := rawURL.data
  if stringContainsCTLByte raw then wrap "net/url: invalid control character in URL" |> .error
  else if raw = [] then .error (wrap "empty url")
  else if raw = ['*'] then
    .ok { Scheme := "", Opaque := "", Host := "", RawPath := "*", RawQuery := "",
          ForceQuery := false }
  else
    match getScheme raw with
    | .error err => .error (wrap err.Error)
    | .ok (scheme, afterScheme) =>
      match cutQuery afterScheme with
      | (rest, query, force) =>
        if rest.head? ≠ some '/' then
          if scheme ≠ [] then
            .ok { Scheme := String.mk (scheme.map Char.toLower), Opaque := String.mk rest, Host := "",
                  RawPath := "", RawQuery := String.mk query, ForceQuery := force }
          else .error (wrap "invalid URI for request")
        else if scheme ≠ [] ∧ (rest.drop 1).head? = some '/' then
          let authority := (rest.drop 2).takeWhile (fun c => c != '/')
          let path := (rest.drop 2).dropWhile (fun c => c != '/')
          match parseAuthority (String.mk authority) with
          | .error err => .error (wrap err.Error)
          | .ok host =>
            if validPathEscapes path then
              .ok { Scheme := String.mk (scheme.map Char.toLower), Opaque := "", Host := host,
                    RawPath := String.mk path, RawQuery := String.mk query,
                    ForceQuery := force }
            else .error (wrap "invalid URL escape")
        else if validPathEscapes rest then
          .ok { Scheme := String.mk (scheme.map Char.toLower), Opaque := "", Host := "",
                RawPath := String.mk rest, RawQuery := String.mk query, ForceQuery := force }
        else .error (wrap "invalid URL escape")

/-- What the handler finds outside: the parser of the authority part that
`url.ParseRequestURI` uses, and the downstream server behind `http.Get`. -/
structure RelayEnv where
  parseAuthority : String → Except GoError String
  Get : String → Except GoError HttpResponse

/-- What a run of the handler does, in order: a downstream `http.Get`; a
status line with a final status put on the response; a status line of an
informational response; a panic inside `WriteHeader`; the deferred
`resp.Body.Close()`. -/
inductive RelayEvent where
  | HttpGet (address : String)
  | Status (code : Nat)
  | Informational (code : Nat)
  | Panic (code : Nat)
  | BodyClose
deriving DecidableEq, Repr

/-- Modelled from the spec: `WriteHeader` of the `http.ResponseWriter` that
the server hands to a handler is not under src/. A code below 100 or above
999 panics (`invalid WriteHeader code`); a code from 100 to 199 other than
101 sends an informational response and leaves the final status open; any
other code is the final status of the response. -/
def WriteHeader (code : Nat) : RelayEvent :=
  if code < 100 ∨ code > 999 then RelayEvent.Panic code
  else if 100 ≤ code ∧ code ≤ 199 ∧ code ≠ 101 then RelayEvent.Informational code
  else RelayEvent.Status code

/-- The function `handler`. The deferred `resp.Body.Close()` runs when the
function is left, also when it is left by a panic. -/
def handler (env : RelayEnv) (r : Request) : List RelayEvent :=
  let address := Values.Get r.Query "address"
  if address = "" then [WriteHeader StatusOK]
  else
    match ParseRequestURI env.parseAuthority address with
    | .error _ => [WriteHeader StatusBadRequest]
    | .ok _ =>
      match env.Get address with
      | .error _ =>
        [RelayEvent.HttpGet address, WriteHeader StatusInternalServerError]
      | .ok resp =>
        if resp.StatusCode.val = StatusOK then
          [RelayEvent.HttpGet address, WriteHeader StatusOK, RelayEvent.BodyClose]
        else
          [RelayEvent.HttpGet address, WriteHeader resp.StatusCode.val,
            RelayEvent.BodyClose]

/-- The final status codes put on the response by `WriteHeader` calls. -/
def statusWritten : List RelayEvent → List Nat
  | [] => []
  | RelayEvent.Status code :: es => code :: statusWritten es
  | _ :: es => statusWritten es

/-- Modelled from the spec: how the server ends a request is not under
src/. The status the caller receives is the first final status written; a
panic before that drops the connection and the caller receives none; a
handler that returns without a final status gets the implicit 200. -/
def respondedStatus : List RelayEvent → Option Nat
  | [] => some 200
  | RelayEvent.Status code :: _ => some code
  | RelayEvent.Panic _ :: _ => none
  | _ :: es => respondedStatus es

/-- The downstream requests the handler issues. -/
def downstreamRequests : List RelayEvent → List String
  | [] => []
  | RelayEvent.HttpGet address :: es => address :: downstreamRequests es
  | _ :: es => downstreamRequests es

/-- The text begins with a URL scheme, the mark of an absolute URL: a
letter, then letters, digits, `+`, `-` or `.`, then a colon. -/
def HasScheme (s : List Char) : Prop :=
  ∃ scheme rest, s = scheme ++ ':' :: rest ∧
    (∃ c cs, scheme = c :: cs ∧ isLetter c = true) ∧
    ∀ c ∈ scheme, isLetter c = true ∨ isSchemeMark c = true

/-! ## A cluster with optimistic concurrency and external writers -/

/-- Modelled from the spec: the API server is not under src/. It stores one
node record; `writers` lists, for each coming read of the record, what
another actor does to the record right after that read: `none` leaves it
alone, `some spec` writes `spec` and with that advances the stored
version. -/
structure ApiServer where
  stored : Node
  writers : List (Option NodeSpec)
deriving DecidableEq, Repr

/-- Modelled from the spec: the text of the Conflict status the API server
answers a stale write with. -/
def conflictMessage (name : String) : String :=
  "Operation cannot be fulfilled on nodes " ++ name ++
    ": the object has been modified; please apply your changes to the latest version and try again"

/-- Modelled from the spec: `GetNode(name) -> NodeRecord | error`. The
stored record is returned when the name is its name, and the next external
writer, if any, then lands its write. -/
def ApiServer.Get (name : String) (s : ApiServer) : Except GoError Node × ApiServer :=
  if name = s.stored.Name then
    match s.writers with
    | [] => (.ok s.stored, s)
    | none :: rest => (.ok s.stored, { s with writers := rest })
    | some spec :: rest =>
      (.ok s.stored,
        { stored := { s.stored with
                        ResourceVersion := s.stored.ResourceVersion + 1, Spec := spec },
          writers := rest })
  else (.error (GoError.StatusError StatusReason.NotFound ("nodes " ++ name ++ " not found")), s)

/-- Modelled from the spec: `UpdateNode(record) -> NodeRecord | error`,
"failing with a Conflict error kind on stale writes". A record whose version
is the stored version replaces the stored record and advances the version;
any other version is rejected with a Conflict and nothing is stored. -/
def ApiServer.Update (node : Node) (s : ApiServer) : Except GoError Node × ApiServer :=
  if node.Name = s.stored.Name then
    if node.ResourceVersion = s.stored.ResourceVersion then
      let written : Node := { node with ResourceVersion := node.ResourceVersion + 1 }
      (.ok written, { s with stored := written })
    else
      (.error (GoError.StatusError StatusReason.Conflict (conflictMessage node.Name)), s)
  else
    (.error (GoError.StatusError StatusReason.NotFound ("nodes " ++ node.Name ++ " not found")), s)

/-- The node client of the API server. -/
def apiClient : NodeInterface ApiServer :=
  { Get := ApiServer.Get, Update := ApiServer.Update }

/-- A pod in which both client constructors succeed. -/
def inCluster : Kube ApiServer :=
  { InClusterConfig := .ok { Host := "https://kubernetes.default.svc" },
    NewForConfig := fun _ => .ok apiClient }

/-- The taint the agent is deployed to remove. -/
def readinessTaint : Taint := { Key := "netpingpong", Value := "pending", Effect := "NoSchedule" }

/-- A taint of another key. -/
def diskTaint : Taint := { Key := "disk", Value := "full", Effect := "NoSchedule" }

/-- A second taint under the key of `readinessTaint`, with another effect. -/
def readinessTaintNoExecute : Taint :=
  { Key := "netpingpong", Value := "pending", Effect := "NoExecute" }

/-- The node `worker-1` at version 7, carrying the readiness taint and one other. -/
def worker1 : Node :=
  { Name := "worker-1", ResourceVersion := 7,
    Spec := { Taints := [diskTaint, readinessTaint], Unschedulable := false } }

/-- What an external writer writes: the node cordoned, taints as they were. -/
def cordoned : NodeSpec := { Taints := [diskTaint, readinessTaint], Unschedulable := true }

/-- A cluster in which one external write lands between the first read and
the first write of the agent, and none after that. -/
def oneConflict : World ApiServer :=
  { cluster := { stored := worker1, writers := [some cordoned, none] }, trace := [] }

/-- A cluster in which an external write lands after every one of the next
six reads of the record. -/
def alwaysConflict : World ApiServer :=
  { cluster := { stored := worker1,
                 writers := [some cordoned, some cordoned, some cordoned,
                             some cordoned, some cordoned, some cordoned] },
    trace := [] }

/-- A cluster without external writers. -/
def quiet : World ApiServer :=
  { cluster := { stored := worker1, writers := [] }, trace := [] }

/-- The node `worker-2`, which carries two taints under the readiness key. -/
def worker2 : Node :=
  { Name := "worker-2", ResourceVersion := 3,
    Spec := { Taints := [readinessTaint, diskTaint, readinessTaintNoExecute], Unschedulable := false } }

/-- A cluster that stores `worker2`, without external writers. -/
def quiet2 : World ApiServer :=
  { cluster := { stored := worker2, writers := [] }, trace := [] }

/-- An iteration in which the token is there and the peer answers 200. -/
def healthyTick : TickEnv ApiServer :=
  { Getenv := fun name =>
      if name = "NODE_NAME" then "worker-1"
      else if name = "TAINT_NAME" then "netpingpong"
      else if name = "NETPong_ADDRESS" then "http://peer:8080/"
      else "",
    ReadFile := fun _ => .ok "s3cr3t",
    NewRequest := fun method url => .ok { Method := method, URL := url, Header := [] },
    Do := fun _ => .ok { StatusCode := 200 },
    kube := inCluster }

/-- An iteration in which the token file is missing. -/
def tokenMissingTick : TickEnv ApiServer :=
  { healthyTick with
    ReadFile := fun name => .error (GoError.errorString ("open " ++ name ++ ": no such file")) }

/-- An iteration in which the peer answers 503. -/
def unavailableTick : TickEnv ApiServer :=
  { healthyTick with Do := fun _ => .ok { StatusCode := 503 } }

/-- A relay surrounding in which every authority is accepted as it stands
and three servers answer: `http://teapot` with 418, `http://ok` with 200,
`http://s099` with the status line `HTTP/1.1 099 Odd`; every other request
fails in transport. -/
def teapotRelay : RelayEnv :=
  { parseAuthority := fun authority => .ok authority,
    Get := fun address =>
      if address = "http://teapot" then .ok { StatusCode := 418 }
      else if address = "http://ok" then .ok { StatusCode := 200 }
      else if address = "http://s099" then .ok { StatusCode := 99 }
      else .error (GoError.errorString "unsupported protocol scheme or connection refused") }

/-- A closure that returns the error of the API unchanged: it fails with a
Conflict status while the counter of calls is below `k`, and succeeds from
then on. Used to exercise `RetryOnConflict`. -/
def conflictsThenOk (k : Nat) (calls : Nat) : Option GoError × Nat :=
  if calls < k then (some (GoError.StatusError StatusReason.Conflict "conflict"), calls + 1)
  else (none, calls + 1)

/-! ## Theorems -/

theorem foldl_append_filter (taintName : String) (taints acc : List Taint) :
    taints.foldl
      (fun acc taint => if taint.Key != taintName then acc ++ [taint] else acc) acc
      = acc ++ taints.filter (fun t => t.Key != taintName) := by
  induction taints generalizing acc with
  | nil => simp
  | cons t ts ih =>
    simp only [List.foldl_cons, ih, List.filter_cons]
    split <;> simp

theorem newTaints_eq_filter (taintName : String) (taints : List Taint) :
    newTaints taintName taints = taints.filter (fun t => t.Key != taintName) := by
  unfold newTaints
  rw [foldl_append_filter, List.nil_append]


/-! ### The retry loop -/

theorem IsConflict_Errorf (text name : String) (err : GoError) :
    IsConflict (Errorf text name err) = false := rfl

theorem OnError_first_ok {τ : Type} (n : Nat) (retriable : GoError → Bool)
    (fn : τ → Option GoError × τ) (s s1 : τ) (h : fn s = (none, s1)) :
    OnError { Steps := n + 1 } retriable fn s = (none, s1) := by
  simp [OnError, ExponentialBackoff, h]

theorem OnError_first_final {τ : Type} (n : Nat) (retriable : GoError → Bool)
    (fn : τ → Option GoError × τ) (s s1 : τ) (e : GoError) (h : fn s = (some e, s1))
    (hr : retriable e = false) (hne : e ≠ GoError.ErrWaitTimeout) :
    OnError { Steps := n + 1 } retriable fn s = (some e, s1) := by
  simp [OnError, ExponentialBackoff, h, hr, hne]

theorem removeTaint_func1_result {σ : Type} (c : NodeInterface σ)
    (nodeName taintName : String) (w : World σ) :
    (∃ w1, removeTaint_func1 c nodeName taintName w = (none, w1)) ∨
    (∃ msg w1, removeTaint_func1 c nodeName taintName w = (some (GoError.errorString msg), w1)) := by
  unfold removeTaint_func1
  rcases hg : nodesGet c nodeName w with ⟨rg, w1⟩
  cases rg with
  | error err => exact Or.inr ⟨_, _, rfl⟩
  | ok node =>
    simp only []
    rcases hu : nodesUpdate c (setTaints taintName node) w1 with ⟨ru, w2⟩
    cases ru with
    | error err => exact Or.inr ⟨_, _, rfl⟩
    | ok _ => exact Or.inl ⟨_, rfl⟩

/-- The closure of `removeTaint` never returns an error that
`errors.IsConflict` accepts, so under `RetryOnConflict` it runs once. -/
theorem RetryOnConflict_func1 {σ : Type} (c : NodeInterface σ)
    (nodeName taintName : String) (w : World σ) :
    RetryOnConflict DefaultRetry (removeTaint_func1 c nodeName taintName) w
      = removeTaint_func1 c nodeName taintName w := by
  unfold RetryOnConflict DefaultRetry
  rcases removeTaint_func1_result c nodeName taintName w with ⟨w1, h⟩ | ⟨msg, w1, h⟩
  · rw [h]; exact OnError_first_ok 4 _ _ _ _ h
  · rw [h]; exact OnError_first_final 4 _ _ _ _ _ h rfl (by simp)

/-- The library loop does retry: a closure that hands the Conflict status
back unchanged `k` times, `k` below the budget, is run `k + 1` times and
the call succeeds. -/
theorem RetryOnConflict_retries_unwrapped_conflict :
    RetryOnConflict DefaultRetry (conflictsThenOk 0) 0 = (none, 1) ∧
    RetryOnConflict DefaultRetry (conflictsThenOk 1) 0 = (none, 2) ∧
    RetryOnConflict DefaultRetry (conflictsThenOk 2) 0 = (none, 3) ∧
    RetryOnConflict DefaultRetry (conflictsThenOk 3) 0 = (none, 4) ∧
    RetryOnConflict DefaultRetry (conflictsThenOk 4) 0 = (none, 5) ∧
    RetryOnConflict DefaultRetry (conflictsThenOk 5) 0
      = (some (GoError.StatusError StatusReason.Conflict "conflict"), 5) := by
  refine ⟨?_, ?_, ?_, ?_, ?_, ?_⟩ <;> decide

/-! ### Runs of `removeTaint` -/

theorem removeTaint_eq_func1 {σ : Type} (k : Kube σ) (config : RestConfig)
    (c : NodeInterface σ) (hc : k.InClusterConfig = .ok config)
    (hn : k.NewForConfig config = .ok c) (nodeName taintName : String) (w : World σ) :
    removeTaint k nodeName taintName w =
      match removeTaint_func1 c nodeName taintName
          { w with trace := w.trace ++ [Event.removeTaint nodeName taintName] } with
      | (some retryErr, w1) => (Outcome.Fatal ("Error removing taint: " ++ retryErr.Error), w1)
      | (none, w1) => (Outcome.Return, w1) := by
  simp only [removeTaint, hc, hn, RetryOnConflict_func1]

theorem func1_get_error {σ : Type} (c : NodeInterface σ) (nodeName taintName : String)
    (w : World σ) (err : GoError) (cl : σ)
    (hg : c.Get nodeName w.cluster = (.error err, cl)) :
    removeTaint_func1 c nodeName taintName w =
      (some (Errorf "failed to get node " nodeName err),
        { cluster := cl, trace := w.trace ++ [Event.Get nodeName (.error err)] }) := by
  simp [removeTaint_func1, nodesGet, hg]

theorem func1_update_error {σ : Type} (c : NodeInterface σ) (nodeName taintName : String)
    (w : World σ) (node : Node) (err : GoError) (cl1 cl2 : σ)
    (hg : c.Get nodeName w.cluster = (.ok node, cl1))
    (hu : c.Update (setTaints taintName node) cl1 = (.error err, cl2)) :
    removeTaint_func1 c nodeName taintName w =
      (some (Errorf "failed to update node " nodeName err),
        { cluster := cl2,
          trace := w.trace ++ [Event.Get nodeName (.ok node),
            Event.Update (setTaints taintName node) (.error err)] }) := by
  simp [removeTaint_func1, nodesGet, nodesUpdate, hg, hu]

theorem func1_update_ok {σ : Type} (c : NodeInterface σ) (nodeName taintName : String)
    (w : World σ) (node written : Node) (cl1 cl2 : σ)
    (hg : c.Get nodeName w.cluster = (.ok node, cl1))
    (hu : c.Update (setTaints taintName node) cl1 = (.ok written, cl2)) :
    removeTaint_func1 c nodeName taintName w =
      (none,
        { cluster := cl2,
          trace := w.trace ++ [Event.Get nodeName (.ok node),
            Event.Update (setTaints taintName node) (.ok written)] }) := by
  simp [removeTaint_func1, nodesGet, nodesUpdate, hg, hu]

/-- Every run of `removeTaint` is one of four: the client could not be
built; the one `Get` failed; the one `Get` succeeded and the one `Update`
failed; both succeeded. Only the last returns. -/
theorem removeTaint_runs {σ : Type} (k : Kube σ) (nodeName taintName : String)
    (w : World σ) :
    ∃ calls, (removeTaint k nodeName taintName w).2.trace
        = w.trace ++ Event.removeTaint nodeName taintName :: calls ∧
      ((calls = [] ∧ ∃ msg, (removeTaint k nodeName taintName w).1 = Outcome.Fatal msg) ∨
       (∃ err, calls = [Event.Get nodeName (.error err)] ∧
          ∃ msg, (removeTaint k nodeName taintName w).1 = Outcome.Fatal msg) ∨
       (∃ node err, calls = [Event.Get nodeName (.ok node),
            Event.Update (setTaints taintName node) (.error err)] ∧
          ∃ msg, (removeTaint k nodeName taintName w).1 = Outcome.Fatal msg) ∨
       (∃ node written, calls = [Event.Get nodeName (.ok node),
            Event.Update (setTaints taintName node) (.ok written)] ∧
          (removeTaint k nodeName taintName w).1 = Outcome.Return)) := by
  cases hc : k.InClusterConfig with
  | error err =>
    refine ⟨[], ?_, Or.inl ⟨rfl, ?_⟩⟩ <;> simp [removeTaint, hc]
  | ok config =>
    cases hn : k.NewForConfig config with
    | error err =>
      refine ⟨[], ?_, Or.inl ⟨rfl, ?_⟩⟩ <;> simp [removeTaint, hc, hn]
    | ok c =>
      rw [removeTaint_eq_func1 k config c hc hn]
      rcases hg : c.Get nodeName w.cluster with ⟨rg, cl1⟩
      cases rg with
      | error err =>
        rw [func1_get_error c nodeName taintName
          { cluster := w.cluster, trace := w.trace ++ [Event.removeTaint nodeName taintName] } err cl1 hg]
        exact ⟨_, by simp, Or.inr (Or.inl ⟨err, rfl, _, rfl⟩)⟩
      | ok node =>
        rcases hu : c.Update (setTaints taintName node) cl1 with ⟨ru, cl2⟩
        cases ru with
        | error err =>
          rw [func1_update_error c nodeName taintName
            { cluster := w.cluster, trace := w.trace ++ [Event.removeTaint nodeName taintName] }
            node err cl1 cl2 hg hu]
          exact ⟨_, by simp, Or.inr (Or.inr (Or.inl ⟨node, err, rfl, _, rfl⟩))⟩
        | ok written =>
          rw [func1_update_ok c nodeName taintName
            { cluster := w.cluster, trace := w.trace ++ [Event.removeTaint nodeName taintName] }
            node written cl1 cl2 hg hu]
          exact ⟨_, by simp, Or.inr (Or.inr (Or.inr ⟨node, written, rfl, rfl⟩))⟩

/-- No run of `removeTaint` makes a second attempt: over every cluster it
issues at most one `Get` and at most one `Update`. -/
theorem removeTaint_single_attempt {σ : Type} (k : Kube σ) (nodeName taintName : String)
    (w : World σ) :
    ∃ calls, (removeTaint k nodeName taintName w).2.trace
        = w.trace ++ Event.removeTaint nodeName taintName :: calls ∧
      countGet calls ≤ 1 ∧ countUpdate calls ≤ 1 := by
  obtain ⟨calls, htrace, hcases⟩ := removeTaint_runs k nodeName taintName w
  refine ⟨calls, htrace, ?_⟩
  rcases hcases with ⟨h, _⟩ | ⟨err, h, _⟩ | ⟨node, err, h, _⟩ | ⟨node, written, h, _⟩ <;>
    subst h <;> simp [countGet, countUpdate]

/-! ### The taint transform -/

/-- C2 (order and content preservation): for every key and every node
record, the taint list that `removeTaint` writes back is the list read
filtered by `Key != taintName`: exactly the taints of another key, each
unchanged and in the order they had, so in particular a sublist of the list
read; the rest of the record is written back as read. -/
theorem newTaints_preserves_order_and_content (taintName : String) (node : Node) :
    (setTaints taintName node).Spec.Taints
        = node.Spec.Taints.filter (fun t => t.Key != taintName) ∧
      List.Sublist (setTaints taintName node).Spec.Taints node.Spec.Taints ∧
      (setTaints taintName node).Name = node.Name ∧
      (setTaints taintName node).ResourceVersion = node.ResourceVersion ∧
      (setTaints taintName node).Spec.Unschedulable = node.Spec.Unschedulable := by
  refine ⟨newTaints_eq_filter _ _, ?_, rfl, rfl, rfl⟩
  show List.Sublist (newTaints taintName node.Spec.Taints) node.Spec.Taints
  rw [newTaints_eq_filter]
  exact List.filter_sublist _

/-- C3 (idempotent removal): for every node record and every key, applying
the transform of `removeTaint` twice gives the same taint collection, and
the same record, as applying it once. -/
theorem setTaints_idempotent (taintName : String) (node : Node) :
    (setTaints taintName (setTaints taintName node)).Spec.Taints
        = (setTaints taintName node).Spec.Taints ∧
      setTaints taintName (setTaints taintName node) = setTaints taintName node := by
  have h : newTaints taintName (newTaints taintName node.Spec.Taints)
      = newTaints taintName node.Spec.Taints := by
    rw [newTaints_eq_filter, newTaints_eq_filter, List.filter_filter]
    simp
  exact ⟨h, by simp [setTaints, h]⟩

/-- C4 (taint absent after removal): in every run of `removeTaint`, over
every cluster, a record sent in an `Update` carries no taint whose key is
`taintName`, however many taints of that key the record read had. -/
theorem removeTaint_writes_no_taint_of_key {σ : Type} (k : Kube σ)
    (nodeName taintName : String) (cluster : σ) (sent : Node) (r : Except GoError Node)
    (t : Taint)
    (hsent : Event.Update sent r ∈
      (removeTaint k nodeName taintName { cluster := cluster, trace := [] }).2.trace)
    (ht : t ∈ sent.Spec.Taints) : t.Key ≠ taintName := by
  have key : ∀ node : Node, t ∈ (setTaints taintName node).Spec.Taints → t.Key ≠ taintName := by
    intro node hmem
    change t ∈ newTaints taintName node.Spec.Taints at hmem
    rw [newTaints_eq_filter, List.mem_filter] at hmem
    simpa using hmem.2
  obtain ⟨calls, htrace, hcases⟩ :=
    removeTaint_runs k nodeName taintName { cluster := cluster, trace := [] }
  rw [htrace] at hsent
  rcases hcases with ⟨h, _⟩ | ⟨err, h, _⟩ | ⟨node, err, h, _⟩ | ⟨node, written, h, _⟩ <;>
    subst h <;> simp at hsent
  · exact key node (hsent.1 ▸ ht)
  · exact key node (hsent.1 ▸ ht)

/-- C9 as amended (at most one entry removed when the key occurs at most
once): for every taint list in which at most one taint has the key
`taintName`, the list written back is at most one entry shorter. -/
theorem newTaints_removes_at_most_one_of_unique_key (taintName : String)
    (taints : List Taint)
    (huniq : (taints.filter (fun t => t.Key == taintName)).length ≤ 1) :
    taints.length - 1 ≤ (newTaints taintName taints).length := by
  rw [newTaints_eq_filter]
  have hsplit : (taints.filter (fun t => t.Key == taintName)).length
      + (taints.filter (fun t => t.Key != taintName)).length = taints.length := by
    induction taints with
    | nil => rfl
    | cons t ts ih =>
      have ih1 := ih (by
        refine le_trans ?_ huniq
        exact (List.Sublist.filter _ (List.sublist_cons_self t ts)).length_le) 
      by_cases hk : t.Key = taintName
      · simp [List.filter_cons, hk] at ih1 ⊢; omega
      · simp [List.filter_cons, hk] at ih1 ⊢; omega
  omega

/-- A run at which C4 applies: on `worker-2`, which carries two taints under
the readiness key, the record sent keeps the disk taint, whose key differs. -/
theorem removeTaint_writes_no_taint_of_key_witness :
    (Event.Update (setTaints "netpingpong" worker2)
        (.ok { setTaints "netpingpong" worker2 with ResourceVersion := 4 }) ∈
      (removeTaint inCluster "worker-2" "netpingpong"
        { cluster := quiet2.cluster, trace := [] }).2.trace) ∧
    diskTaint ∈ (setTaints "netpingpong" worker2).Spec.Taints ∧
    (setTaints "netpingpong" worker2).Spec.Taints = [diskTaint] ∧
    diskTaint.Key ≠ "netpingpong" :=
  have hsent : Event.Update (setTaints "netpingpong" worker2)
        (.ok { setTaints "netpingpong" worker2 with ResourceVersion := 4 }) ∈
      (removeTaint inCluster "worker-2" "netpingpong"
        { cluster := quiet2.cluster, trace := [] }).2.trace :=
    List.mem_cons_of_mem _ (List.mem_cons_of_mem _ (List.mem_singleton.mpr rfl))
  have ht : diskTaint ∈ (setTaints "netpingpong" worker2).Spec.Taints := by decide
  ⟨hsent, ht, by decide,
    removeTaint_writes_no_taint_of_key inCluster "worker-2" "netpingpong" quiet2.cluster
      (setTaints "netpingpong" worker2)
      (.ok { setTaints "netpingpong" worker2 with ResourceVersion := 4 }) diskTaint hsent ht⟩

/-- C9 as stated fails: two taints under one key (the API allows them when
their effects differ) are both removed, so a list of length 2 becomes a list
of length 0, which is less than 2 - 1. -/
theorem newTaints_removes_every_taint_of_key :
    newTaints "netpingpong" [readinessTaint, readinessTaintNoExecute] = [] ∧
    ¬ ([readinessTaint, readinessTaintNoExecute].length - 1
        ≤ (newTaints "netpingpong" [readinessTaint, readinessTaintNoExecute]).length) := by
  decide

/-- A list at which the amended C9 applies: one readiness taint among two. -/
theorem newTaints_removes_at_most_one_of_unique_key_witness :
    ([diskTaint, readinessTaint].filter (fun t => t.Key == "netpingpong")).length ≤ 1 ∧
    [diskTaint, readinessTaint].length - 1 ≤ (newTaints "netpingpong" [diskTaint, readinessTaint]).length :=
  ⟨by decide,
    newTaints_removes_at_most_one_of_unique_key "netpingpong" [diskTaint, readinessTaint] (by decide)⟩

/-! ### The read-modify-write protocol -/

/-- C10 (fresh read per attempt): in every run of `removeTaint`, over every
cluster and from every earlier trace, each `Update` comes right after a
successful `Get` of `nodeName` and sends the transform of the record that
`Get` returned; and a failed `Get` is the last call of the run (no `Update`,
no further attempt), and the run ends in `log.Fatalf`. -/
theorem removeTaint_fresh_read_per_attempt {σ : Type} (k : Kube σ)
    (nodeName taintName : String) (w : World σ) :
    ∃ calls, (removeTaint k nodeName taintName w).2.trace
        = w.trace ++ Event.removeTaint nodeName taintName :: calls ∧
      (∀ before after sent r, calls = before ++ Event.Update sent r :: after →
        ∃ earlier fetched, before = earlier ++ [Event.Get nodeName (.ok fetched)] ∧
          sent = setTaints taintName fetched) ∧
      (∀ before after name err, calls = before ++ Event.Get name (.error err) :: after →
        after = [] ∧ ∃ msg, (removeTaint k nodeName taintName w).1 = Outcome.Fatal msg) := by
  obtain ⟨calls, htrace, hcases⟩ := removeTaint_runs k nodeName taintName w
  refine ⟨calls, htrace, ?_, ?_⟩
  · intro before after sent r hsplit
    rcases hcases with ⟨h, _⟩ | ⟨err, h, _⟩ | ⟨node, err, h, _⟩ | ⟨node, written, h, _⟩ <;>
      subst h <;>
      rcases before with _ | ⟨b1, _ | ⟨b2, _ | ⟨b3, bs⟩⟩⟩ <;>
      simp at hsplit
    · obtain ⟨h1, h2, h3⟩ := hsplit
      exact ⟨[], node, by simp [h1], h2.1.symm⟩
    · obtain ⟨h1, h2, h3⟩ := hsplit
      exact ⟨[], node, by simp [h1], h2.1.symm⟩
  · intro before after name err hsplit
    rcases hcases with ⟨h, _⟩ | ⟨e, h, hf⟩ | ⟨node, e, h, _⟩ | ⟨node, written, h, _⟩ <;>
      subst h <;>
      rcases before with _ | ⟨b1, _ | ⟨b2, _ | ⟨b3, bs⟩⟩⟩ <;>
      simp at hsplit
    exact ⟨hsplit.2, hf⟩

/-- A run at which both parts of C10 say something: on `worker-1` in a
quiet cluster the run is a `Get` followed by an `Update` of the transformed
record; asked for a node the cluster does not have, the run is one failed
`Get` and the process exits. -/
theorem removeTaint_fresh_read_per_attempt_witness :
    (removeTaint inCluster "worker-1" "netpingpong" quiet).2.trace
      = [Event.removeTaint "worker-1" "netpingpong",
         Event.Get "worker-1" (.ok worker1),
         Event.Update (setTaints "netpingpong" worker1)
           (.ok { setTaints "netpingpong" worker1 with ResourceVersion := 8 })] ∧
    (removeTaint inCluster "worker-9" "netpingpong" quiet).2.trace
      = [Event.removeTaint "worker-9" "netpingpong",
         Event.Get "worker-9"
           (.error (GoError.StatusError StatusReason.NotFound "nodes worker-9 not found"))] ∧
    (removeTaint inCluster "worker-9" "netpingpong" quiet).1
      = Outcome.Fatal
          "Error removing taint: failed to get node worker-9: nodes worker-9 not found" ∧
    (∃ calls, (removeTaint inCluster "worker-1" "netpingpong" quiet).2.trace
        = quiet.trace ++ Event.removeTaint "worker-1" "netpingpong" :: calls ∧
      (∀ before after sent r, calls = before ++ Event.Update sent r :: after →
        ∃ earlier fetched, before = earlier ++ [Event.Get "worker-1" (.ok fetched)] ∧
          sent = setTaints "netpingpong" fetched) ∧
      (∀ before after name err, calls = before ++ Event.Get name (.error err) :: after →
        after = [] ∧ ∃ msg,
          (removeTaint inCluster "worker-1" "netpingpong" quiet).1 = Outcome.Fatal msg)) :=
  ⟨rfl, rfl, by decide,
    removeTaint_fresh_read_per_attempt inCluster "worker-1" "netpingpong" quiet⟩

/-- C1 at N = 2 (one conflicting external write, then none): the first
`Update` of `removeTaint` is rejected with a Conflict; the closure wraps that
error with `fmt.Errorf` and `%v`, `RetryOnConflict` no longer sees a
Conflict, and the run ends in `log.Fatalf` after one `Get` and one `Update`
instead of two and two, although a second attempt (the closure run once
more) would have succeeded. -/
theorem removeTaint_gives_up_on_first_conflict :
    (removeTaint inCluster "worker-1" "netpingpong" oneConflict).2.trace
      = [Event.removeTaint "worker-1" "netpingpong",
         Event.Get "worker-1" (.ok worker1),
         Event.Update (setTaints "netpingpong" worker1)
           (.error (GoError.StatusError StatusReason.Conflict (conflictMessage "worker-1")))] ∧
    (removeTaint inCluster "worker-1" "netpingpong" oneConflict).1
      = Outcome.Fatal ("Error removing taint: failed to update node worker-1: "
          ++ conflictMessage "worker-1") ∧
    countGet (removeTaint inCluster "worker-1" "netpingpong" oneConflict).2.trace = 1 ∧
    countUpdate (removeTaint inCluster "worker-1" "netpingpong" oneConflict).2.trace = 1 ∧
    (removeTaint_func1 apiClient "worker-1" "netpingpong"
        (removeTaint inCluster "worker-1" "netpingpong" oneConflict).2).1 = none ∧
    (removeTaint inCluster "worker-1" "netpingpong" oneConflict).2.cluster.stored.Spec.Taints
      = [diskTaint, readinessTaint] := by
  refine ⟨rfl, rfl, by decide, by decide, by decide, by decide⟩

/-- C8 when every write meets a Conflict (an external write lands after
every read): `removeTaint` does not use up the budget of 5 attempts; it
issues one `Get` and one `Update`, the error it ends with is not a Conflict
for `errors.IsConflict` and is fatal, five of the six external writes are
still to come, and the stored record is the one the external writer wrote. -/
theorem removeTaint_stops_before_budget_is_used :
    countGet (removeTaint inCluster "worker-1" "netpingpong" alwaysConflict).2.trace = 1 ∧
    countUpdate (removeTaint inCluster "worker-1" "netpingpong" alwaysConflict).2.trace = 1 ∧
    countUpdate (removeTaint inCluster "worker-1" "netpingpong" alwaysConflict).2.trace
      < DefaultRetry.Steps ∧
    (removeTaint inCluster "worker-1" "netpingpong" alwaysConflict).1
      = Outcome.Fatal ("Error removing taint: failed to update node worker-1: "
          ++ conflictMessage "worker-1") ∧
    (RetryOnConflict DefaultRetry (removeTaint_func1 apiClient "worker-1" "netpingpong")
        alwaysConflict).1.map IsConflict = some false ∧
    (removeTaint inCluster "worker-1" "netpingpong" alwaysConflict).2.cluster.stored
      = { worker1 with ResourceVersion := 8, Spec := cordoned } ∧
    (removeTaint inCluster "worker-1" "netpingpong" alwaysConflict).2.cluster.writers.length
      = 5 := by
  refine ⟨by decide, by decide, by decide, rfl, by decide, by decide, by decide⟩

/-! ### The probe loop -/

theorem probeTick_healthy {σ : Type} (env : TickEnv σ) (w : World σ)
    (h : probeHealthy env) :
    probeTick env w
      = removeTaint env.kube (env.Getenv "NODE_NAME") (env.Getenv "TAINT_NAME") w := by
  obtain ⟨token, req, resp, h1, h2, h3, h4⟩ := h
  have hv : resp.StatusCode.val = 200 := by rw [h4]; rfl
  simp [probeTick, h1, h2, h3, hv, StatusOK]

theorem probeTick_unhealthy {σ : Type} (env : TickEnv σ) (w : World σ)
    (h : ¬ probeHealthy env) : probeTick env w = (Outcome.Return, w) := by
  cases h1 : env.ReadFile "/var/run/secrets/netpingpong/token" with
  | error e => simp [probeTick, h1]
  | ok token =>
    cases h2 : env.NewRequest "GET" (env.Getenv "NETPong_ADDRESS") with
    | error e => simp [probeTick, h1, h2]
    | ok req =>
      cases h3 : env.Do
          { req with Header := req.Header ++ [("Authorization", "Bearer " ++ token)] } with
      | error e => simp [probeTick, h1, h2, h3]
      | ok resp =>
        by_cases h4 : resp.StatusCode.val = 200
        · exact absurd ⟨token, req, resp, h1, h2, h3, Fin.ext h4⟩ h
        · simp [probeTick, h1, h2, h3, StatusOK, h4]

theorem removeTaintCalls_runs {σ : Type} (k : Kube σ) (nodeName taintName : String)
    (w : World σ) :
    ∃ calls, (removeTaint k nodeName taintName w).2.trace
        = w.trace ++ Event.removeTaint nodeName taintName :: calls ∧
      removeTaintCalls calls = [] := by
  obtain ⟨calls, htrace, hcases⟩ := removeTaint_runs k nodeName taintName w
  refine ⟨calls, htrace, ?_⟩
  rcases hcases with ⟨h, _⟩ | ⟨err, h, _⟩ | ⟨node, err, h, _⟩ | ⟨node, written, h, _⟩ <;>
    subst h <;> rfl

theorem probeTick_trace {σ : Type} (env : TickEnv σ) (w : World σ) :
    ∃ calls, (probeTick env w).2.trace = w.trace ++ calls := by
  by_cases h : probeHealthy env
  · obtain ⟨calls, htrace, _⟩ :=
      removeTaint_runs env.kube (env.Getenv "NODE_NAME") (env.Getenv "TAINT_NAME") w
    exact ⟨_, by rw [probeTick_healthy env w h]; exact htrace⟩
  · exact ⟨[], by simp [probeTick_unhealthy env w h]⟩

theorem probeLoop_cons {σ : Type} (env : TickEnv σ) (envs : List (TickEnv σ)) (w : World σ) :
    probeLoop (env :: envs) w =
      match probeTick env w with
      | (Outcome.Fatal msg, w1) => (Outcome.Fatal msg, w1)
      | (Outcome.Return, w1) => probeLoop envs w1 := by
  rw [probeLoop]

theorem probeLoop_trace {σ : Type} (envs : List (TickEnv σ)) :
    ∀ w : World σ, ∃ calls, (probeLoop envs w).2.trace = w.trace ++ calls := by
  induction envs with
  | nil => intro w; exact ⟨[], by simp [probeLoop]⟩
  | cons env envs ih =>
    intro w
    obtain ⟨calls, hcalls⟩ := probeTick_trace env w
    rw [probeLoop_cons]
    rcases ht : probeTick env w with ⟨out, w1⟩
    rw [ht] at hcalls
    cases out with
    | Fatal msg => exact ⟨calls, hcalls⟩
    | Return =>
      obtain ⟨later, hlater⟩ := ih w1
      exact ⟨calls ++ later, by simp only []; rw [hlater, hcalls, List.append_assoc]⟩

/-- The loop runs the iteration at its head: what that iteration does to
the trace is the beginning of what the loop does. -/
theorem probeLoop_runs_head {σ : Type} (env : TickEnv σ) (envs : List (TickEnv σ))
    (w : World σ) :
    ∃ later, (probeLoop (env :: envs) w).2.trace = (probeTick env w).2.trace ++ later := by
  rw [probeLoop_cons]
  rcases ht : probeTick env w with ⟨out, w1⟩
  cases out with
  | Fatal msg => exact ⟨[], by simp⟩
  | Return => exact probeLoop_trace envs w1

/-- C5 (when the probe loop calls `removeTaint`): in every iteration, over
every surrounding and every cluster, `removeTaint` is entered exactly once,
with the values of `NODE_NAME` and `TAINT_NAME` read in that iteration, if
and only if the token was read, the request was built, a response came back
and its status is 200, and then the iteration is that one call; in every
other case the iteration adds nothing to the trace (no cluster API call),
leaves the cluster as it was, and the loop goes on: the iteration after it
is run, from the unchanged world, and what it calls is in the trace of the
loop. The loop runs every iteration it reaches: a loop of one iteration is
that iteration, an iteration that exits the process ends the loop, and one
that returns is followed by the rest of the loop. -/
theorem probeTick_calls_removeTaint_iff_healthy {σ : Type} (env : TickEnv σ) (w : World σ) :
    (∃ calls, (probeTick env w).2.trace = w.trace ++ calls ∧
      (probeHealthy env ↔
        removeTaintCalls calls = [(env.Getenv "NODE_NAME", env.Getenv "TAINT_NAME")]) ∧
      (probeHealthy env →
        probeTick env w
          = removeTaint env.kube (env.Getenv "NODE_NAME") (env.Getenv "TAINT_NAME") w) ∧
      (¬ probeHealthy env →
        calls = [] ∧ probeTick env w = (Outcome.Return, w) ∧
          ∀ envs, probeLoop (env :: envs) w = probeLoop envs w)) ∧
    (¬ probeHealthy env → ∀ next envs,
      ∃ later, (probeLoop (env :: next :: envs) w).2.trace
        = (probeTick next w).2.trace ++ later) ∧
    probeLoop [env] w = probeTick env w ∧
    (∀ envs, ∃ later,
      (probeLoop (env :: envs) w).2.trace = (probeTick env w).2.trace ++ later) ∧
    (∀ envs, probeLoop (env :: envs) w =
      match probeTick env w with
      | (Outcome.Fatal msg, w1) => (Outcome.Fatal msg, w1)
      | (Outcome.Return, w1) => probeLoop envs w1) := by
  refine ⟨?_, ?_, ?_, fun envs => probeLoop_runs_head env envs w,
    fun envs => probeLoop_cons env envs w⟩
  · by_cases h : probeHealthy env
    · obtain ⟨calls, htrace, hcalls⟩ :=
        removeTaintCalls_runs env.kube (env.Getenv "NODE_NAME") (env.Getenv "TAINT_NAME") w
      refine ⟨Event.removeTaint (env.Getenv "NODE_NAME") (env.Getenv "TAINT_NAME") :: calls,
        ?_, ?_, fun _ => probeTick_healthy env w h, fun hn => absurd h hn⟩
      · rw [probeTick_healthy env w h]; exact htrace
      · simp [removeTaintCalls, hcalls, h]
    · have hret := probeTick_unhealthy env w h
      refine ⟨[], by simp [hret], ?_, fun hh => absurd hh h, fun _ => ⟨rfl, hret, ?_⟩⟩
      · simp [removeTaintCalls, h]
      · intro envs
        simp [probeLoop, hret]
  · intro h next envs
    have hskip : probeLoop (env :: next :: envs) w = probeLoop (next :: envs) w := by
      rw [probeLoop_cons, probeTick_unhealthy env w h]
    rw [hskip]
    exact probeLoop_runs_head next envs w
  · rw [probeLoop_cons]
    rcases probeTick env w with ⟨out, w1⟩
    cases out <;> simp [probeLoop]

/-- Iterations at which C5 says something: with the token there and a 200
from the peer the iteration is one `Get` and one `Update` against
`worker-1`; with the token file missing, or a 503 from the peer, nothing is
called and the loop goes on; and a loop of a missing token, a 503 and then
a healthy probe does run its third iteration, whose `Get` and `Update`
make up the trace of the loop. -/
theorem probeTick_calls_removeTaint_iff_healthy_witness :
    probeHealthy healthyTick ∧
    (probeTick healthyTick quiet).2.trace
      = [Event.removeTaint "worker-1" "netpingpong",
         Event.Get "worker-1" (.ok worker1),
         Event.Update (setTaints "netpingpong" worker1)
           (.ok { setTaints "netpingpong" worker1 with ResourceVersion := 8 })] ∧
    probeTick tokenMissingTick quiet = (Outcome.Return, quiet) ∧
    probeTick unavailableTick quiet = (Outcome.Return, quiet) ∧
    (probeLoop [tokenMissingTick, unavailableTick, healthyTick] quiet).2.trace
      = [Event.removeTaint "worker-1" "netpingpong",
         Event.Get "worker-1" (.ok worker1),
         Event.Update (setTaints "netpingpong" worker1)
           (.ok { setTaints "netpingpong" worker1 with ResourceVersion := 8 })] ∧
    (probeLoop [healthyTick, healthyTick] quiet).2.cluster.stored.ResourceVersion = 9 ∧
    countUpdate (probeLoop [healthyTick, healthyTick] quiet).2.trace = 2 ∧
    ((∃ calls, (probeTick healthyTick quiet).2.trace = quiet.trace ++ calls ∧
      (probeHealthy healthyTick ↔
        removeTaintCalls calls
          = [(healthyTick.Getenv "NODE_NAME", healthyTick.Getenv "TAINT_NAME")]) ∧
      (probeHealthy healthyTick →
        probeTick healthyTick quiet
          = removeTaint healthyTick.kube (healthyTick.Getenv "NODE_NAME")
              (healthyTick.Getenv "TAINT_NAME") quiet) ∧
      (¬ probeHealthy healthyTick →
        calls = [] ∧ probeTick healthyTick quiet = (Outcome.Return, quiet) ∧
          ∀ envs, probeLoop (healthyTick :: envs) quiet = probeLoop envs quiet)) ∧
    (¬ probeHealthy healthyTick → ∀ next envs,
      ∃ later, (probeLoop (healthyTick :: next :: envs) quiet).2.trace
        = (probeTick next quiet).2.trace ++ later) ∧
    probeLoop [healthyTick] quiet = probeTick healthyTick quiet ∧
    (∀ envs, ∃ later,
      (probeLoop (healthyTick :: envs) quiet).2.trace
        = (probeTick healthyTick quiet).2.trace ++ later) ∧
    (∀ envs, probeLoop (healthyTick :: envs) quiet =
      match probeTick healthyTick quiet with
      | (Outcome.Fatal msg, w1) => (Outcome.Fatal msg, w1)
      | (Outcome.Return, w1) => probeLoop envs w1)) :=
  ⟨⟨"s3cr3t", _, _, rfl, rfl, rfl, rfl⟩, rfl, rfl, rfl, rfl, by decide, by decide,
    probeTick_calls_removeTaint_iff_healthy healthyTick quiet⟩

/-! ### The relay handler -/

theorem getSchemeFrom_ok (raw : List Char) :
    ∀ (cs seen : List Char), raw = seen ++ cs →
      (∀ c ∈ seen, isLetter c = true ∨ isSchemeMark c = true) →
      (seen = [] ∨ ∃ c rest, seen = c :: rest ∧ isLetter c = true) →
      ∀ scheme rest, getSchemeFrom raw seen cs = .ok (scheme, rest) →
        (scheme = [] ∧ rest = raw) ∨ HasScheme raw := by
  intro cs
  induction cs with
  | nil =>
    intro seen _ _ _ scheme rest h
    simp only [getSchemeFrom, Except.ok.injEq, Prod.mk.injEq] at h
    exact Or.inl ⟨h.1.symm, h.2.symm⟩
  | cons c cs ih =>
    intro seen hraw hall hhead scheme rest h
    have hraw1 : raw = (seen ++ [c]) ++ cs := by simp [hraw]
    have hhead1 : isLetter c = true →
        (seen ++ [c] = [] ∨ ∃ d rest, seen ++ [c] = d :: rest ∧ isLetter d = true) := by
      intro hc
      rcases hhead with h0 | ⟨d, ds, hd, hl⟩
      · exact Or.inr ⟨c, [], by simp [h0], hc⟩
      · exact Or.inr ⟨d, ds ++ [c], by simp [hd], hl⟩
    unfold getSchemeFrom at h
    by_cases hl : isLetter c = true
    · simp only [hl, if_true] at h
      refine ih (seen ++ [c]) hraw1 ?_ (hhead1 hl) scheme rest h
      intro d hd
      rcases List.mem_append.mp hd with hd | hd
      · exact hall d hd
      · rw [List.mem_singleton.mp hd]; exact Or.inl hl
    · simp only [hl, Bool.false_eq_true, if_false] at h
      by_cases hm : isSchemeMark c = true
      · simp only [hm, if_true] at h
        by_cases hs : seen = []
        · simp only [hs, if_true, Except.ok.injEq, Prod.mk.injEq] at h
          exact Or.inl ⟨h.1.symm, h.2.symm⟩
        · simp only [hs, if_false] at h
          refine ih (seen ++ [c]) hraw1 ?_ ?_ scheme rest h
          · intro d hd
            rcases List.mem_append.mp hd with hd | hd
            · exact hall d hd
            · rw [List.mem_singleton.mp hd]; exact Or.inr hm
          · rcases hhead with h0 | ⟨d, ds, hd, hld⟩
            · exact absurd h0 hs
            · exact Or.inr ⟨d, ds ++ [c], by simp [hd], hld⟩
      · simp only [hm, Bool.false_eq_true, if_false] at h
        by_cases hc : c = ':'
        · simp only [hc, if_true] at h
          by_cases hs : seen = []
          · simp [hs] at h
          · simp only [hs, if_false, Except.ok.injEq, Prod.mk.injEq] at h
            refine Or.inr ⟨seen, cs, by rw [hraw, hc], ?_, hall⟩
            rcases hhead with h0 | hd
            · exact absurd h0 hs
            · exact hd
        · simp only [hc, if_false, Except.ok.injEq, Prod.mk.injEq] at h
          exact Or.inl ⟨h.1.symm, h.2.symm⟩

theorem getScheme_of_no_scheme (raw scheme rest : List Char) (hs : ¬ HasScheme raw)
    (h : getScheme raw = .ok (scheme, rest)) : scheme = [] ∧ rest = raw := by
  rcases getSchemeFrom_ok raw raw [] rfl (by simp) (Or.inl rfl) scheme rest h with h1 | h1
  · exact h1
  · exact absurd h1 hs

theorem cutQuery_head (rest : List Char) (h : rest.head? ≠ some '/') :
    (cutQuery rest).1.head? ≠ some '/' := by
  unfold cutQuery
  cases rest with
  | nil => simp
  | cons c cs =>
    have hc : c ≠ '/' := by simpa using h
    split
    · cases cs with
      | nil => simp
      | cons d ds => simpa [List.dropLast] using hc
    · by_cases hq : c = '?'
      · simp [List.takeWhile, hq]
      · have hb : (c != '?') = true := by simpa using hq
        simp only [List.takeWhile, hb, List.head?_cons]
        simpa using hc

theorem not_HasScheme_of_no_colon (s : List Char) (h : ':' ∉ s) : ¬ HasScheme s := by
  rintro ⟨scheme, rest, hs, _⟩
  exact h (by rw [hs]; simp)

/-- The validator rejects every text without a scheme that does not begin
with `/` and is not `*`. -/
theorem ParseRequestURI_rejects_schemeless (parseAuthority : String → Except GoError String)
    (value : String) (hstar : value ≠ "*") (hs : ¬ HasScheme value.data)
    (hp : value.data.head? ≠ some '/') :
    ∃ err, ParseRequestURI parseAuthority value = .error err := by
  unfold ParseRequestURI
  simp only []
  by_cases h1 : stringContainsCTLByte value.data = true
  · exact ⟨_, by rw [if_pos h1]⟩
  · rw [if_neg h1]
    by_cases h2 : value.data = []
    · exact ⟨_, by rw [if_pos h2]⟩
    · rw [if_neg h2]
      have h3 : value.data ≠ ['*'] := by
        intro h
        exact hstar (String.ext h)
      rw [if_neg h3]
      cases hg : getScheme value.data with
      | error err => exact ⟨_, rfl⟩
      | ok p =>
        obtain ⟨scheme, rest⟩ := p
        obtain ⟨hsch, hrest⟩ := getScheme_of_no_scheme value.data scheme rest hs hg
        subst hsch hrest
        have hq := cutQuery_head value.data hp
        simp only []
        rw [if_pos hq]
        exact ⟨GoError.errorString ("parse " ++ value ++ ": " ++ "invalid URI for request"),
          by simp⟩

theorem downstreamRequests_WriteHeader (address : String) (code : Nat)
    (es : List RelayEvent) :
    downstreamRequests (RelayEvent.HttpGet address :: WriteHeader code :: es)
      = address :: downstreamRequests es := by
  unfold WriteHeader
  split
  · rfl
  · split <;> rfl

/-- For a final status code (101, or 200 to 999) the relay mirrors the
downstream status: with a non-empty address that the validator accepts and
a downstream response of such a code, the handler issues that one request
and the caller receives the code of the response. -/
theorem handler_mirrors_final_status (env : RelayEnv) (r : Request) (u : URL)
    (resp : HttpResponse)
    (hne : Values.Get r.Query "address" ≠ "")
    (hvalid : ParseRequestURI env.parseAuthority (Values.Get r.Query "address") = .ok u)
    (hget : env.Get (Values.Get r.Query "address") = .ok resp)
    (hfinal : 200 ≤ resp.StatusCode.val ∨ resp.StatusCode.val = 101) :
    respondedStatus (handler env r) = some resp.StatusCode.val ∧
      statusWritten (handler env r) = [resp.StatusCode.val] ∧
      downstreamRequests (handler env r) = [Values.Get r.Query "address"] := by
  have hlt : resp.StatusCode.val < 1000 := resp.StatusCode.isLt
  have hw : WriteHeader resp.StatusCode.val = RelayEvent.Status resp.StatusCode.val := by
    unfold WriteHeader
    rw [if_neg (by omega), if_neg (by omega)]
  unfold handler
  simp only [hne, hvalid, hget, if_false]
  by_cases h : resp.StatusCode.val = StatusOK
  · rw [if_pos h, ← h, hw]
    exact ⟨rfl, rfl, rfl⟩
  · rw [if_neg h, hw]
    exact ⟨rfl, rfl, rfl⟩

/-- The request `GET /?address=http://teapot`, downstream answering 418:
the caller receives 418. -/
theorem handler_mirrors_teapot :
    respondedStatus (handler teapotRelay { Query := [("address", ["http://teapot"])] })
      = some 418 ∧
    handler teapotRelay { Query := [("address", ["http://teapot"])] }
      = [RelayEvent.HttpGet "http://teapot", RelayEvent.Status 418, RelayEvent.BodyClose] ∧
    handler teapotRelay { Query := [("address", ["http://ok"])] }
      = [RelayEvent.HttpGet "http://ok", RelayEvent.Status 200, RelayEvent.BodyClose] := by
  refine ⟨by decide, by decide, by decide⟩

/-- C6 at a downstream status below 100 (`GET /?address=http://s099`, the
downstream answering `HTTP/1.1 099 Odd`): the address passes validation and
the downstream request returns a response with status 99, but
`w.WriteHeader(99)` panics, no status is written, and the caller receives
none instead of 99. -/
theorem handler_panics_on_status_below_100 :
    Values.Get [("address", ["http://s099"])] "address" = "http://s099" ∧
    (∃ u, ParseRequestURI teapotRelay.parseAuthority "http://s099" = .ok u) ∧
    teapotRelay.Get "http://s099" = .ok { StatusCode := 99 } ∧
    handler teapotRelay { Query := [("address", ["http://s099"])] }
      = [RelayEvent.HttpGet "http://s099", RelayEvent.Panic 99, RelayEvent.BodyClose] ∧
    statusWritten (handler teapotRelay { Query := [("address", ["http://s099"])] }) = [] ∧
    respondedStatus (handler teapotRelay { Query := [("address", ["http://s099"])] })
      = none := by
  refine ⟨by decide, ⟨_, rfl⟩, rfl, by decide, by decide, by decide⟩

/-- The validator lets an absolute path through: for `GET /?address=/foo`
the handler does not answer 400 but issues the downstream request `/foo`,
and answers 500 when that request fails (as it does for want of a scheme). -/
theorem handler_forwards_absolute_path (env : RelayEnv) :
    (∃ u, ParseRequestURI env.parseAuthority "/foo" = .ok u) ∧
    ¬ HasScheme "/foo".data ∧
    downstreamRequests (handler env { Query := [("address", ["/foo"])] }) = ["/foo"] ∧
    (∀ err, env.Get "/foo" = .error err →
      handler env { Query := [("address", ["/foo"])] }
        = [RelayEvent.HttpGet "/foo", RelayEvent.Status 500]) := by
  have hv : ParseRequestURI env.parseAuthority "/foo"
      = .ok { Scheme := "", Opaque := "", Host := "", RawPath := "/foo", RawQuery := "",
              ForceQuery := false } := rfl
  have ha : Values.Get [("address", ["/foo"])] "address" = "/foo" := by decide
  have hne : ("/foo" : String) ≠ "" := by decide
  refine ⟨⟨_, hv⟩, not_HasScheme_of_no_colon _ (by decide), ?_, ?_⟩
  · unfold handler
    simp only [ha, hne, hv, if_false]
    cases env.Get "/foo" with
    | error err => rfl
    | ok resp =>
      simp only []
      split
      · rfl
      · exact downstreamRequests_WriteHeader _ _ _
  · intro err herr
    unfold handler
    simp only [ha, hne, hv, herr, if_false]
    rfl

/-- C7 as stated fails: in `GET /?address=` the parameter is present, its
value (the empty string) has no scheme, is no valid URL and is rejected by
the validator, yet the handler answers 200 and not 400, since it takes the
empty value for an absent parameter before it validates. -/
theorem handler_answers_200_to_empty_address :
    List.lookup "address" [("address", [""])] = some [""] ∧
    ¬ HasScheme "".data ∧
    (∃ err, ParseRequestURI teapotRelay.parseAuthority "" = .error err) ∧
    handler teapotRelay { Query := [("address", [""])] } = [RelayEvent.Status 200] ∧
    statusWritten (handler teapotRelay { Query := [("address", [""])] }) ≠ [400] ∧
    respondedStatus (handler teapotRelay { Query := [("address", [""])] }) ≠ some 400 := by
  refine ⟨by decide, not_HasScheme_of_no_colon _ (by decide), ⟨_, rfl⟩, by decide, by decide,
    by decide⟩

/-- C7 as amended (the relay rejects malformed addresses): for every request
whose `address` value is not empty and is no absolute URL for want of a
scheme, and neither begins with `/` nor is `*`, and also for every request
whose non-empty `address` value `url.ParseRequestURI` rejects for another
reason, the handler answers 400 and does nothing else: the caller receives
400 and no downstream request is issued. -/
theorem handler_rejects_malformed_address (env : RelayEnv) (r : Request)
    (hne : Values.Get r.Query "address" ≠ "")
    (hbad :
      (Values.Get r.Query "address" ≠ "*" ∧
        ¬ HasScheme (Values.Get r.Query "address").data ∧
        (Values.Get r.Query "address").data.head? ≠ some '/') ∨
      ∃ err, ParseRequestURI env.parseAuthority (Values.Get r.Query "address") = .error err) :
    handler env r = [RelayEvent.Status 400] ∧
      respondedStatus (handler env r) = some 400 ∧
      statusWritten (handler env r) = [400] ∧
      downstreamRequests (handler env r) = [] := by
  have hrej : ∃ err,
      ParseRequestURI env.parseAuthority (Values.Get r.Query "address") = .error err := by
    rcases hbad with ⟨hstar, hs, hp⟩ | h
    · exact ParseRequestURI_rejects_schemeless env.parseAuthority _ hstar hs hp
    · exact h
  obtain ⟨err, herr⟩ := hrej
  have h : handler env r = [RelayEvent.Status 400] := by
    unfold handler
    simp only [hne, herr, if_false]
    rfl
  rw [h]
  exact ⟨rfl, rfl, rfl, rfl⟩

/-- The request `GET /?address=not-a-url`: the value has no colon, hence no
scheme, and does not begin with `/`; the handler answers 400. -/
theorem handler_rejects_malformed_address_witness :
    Values.Get [("address", ["not-a-url"])] "address" ≠ "" ∧
    (Values.Get [("address", ["not-a-url"])] "address" ≠ "*" ∧
      ¬ HasScheme (Values.Get [("address", ["not-a-url"])] "address").data ∧
      (Values.Get [("address", ["not-a-url"])] "address").data.head? ≠ some '/') ∧
    (handler teapotRelay { Query := [("address", ["not-a-url"])] } = [RelayEvent.Status 400] ∧
      respondedStatus (handler teapotRelay { Query := [("address", ["not-a-url"])] })
        = some 400 ∧
      statusWritten (handler teapotRelay { Query := [("address", ["not-a-url"])] }) = [400] ∧
      downstreamRequests (handler teapotRelay { Query := [("address", ["not-a-url"])] })
        = []) :=
  have hshape : Values.Get [("address", ["not-a-url"])] "address" ≠ "*" ∧
      ¬ HasScheme (Values.Get [("address", ["not-a-url"])] "address").data ∧
      (Values.Get [("address", ["not-a-url"])] "address").data.head? ≠ some '/' :=
    ⟨by decide, not_HasScheme_of_no_colon _ (by decide), by decide⟩
  ⟨by decide, hshape,
    handler_rejects_malformed_address teapotRelay { Query := [("address", ["not-a-url"])] }
      (by decide) (Or.inl hshape)⟩

end NetPingPong
